import Mathlib

/-!
Shallow embedding of `relay/nakama/events.go` (package main) from
exo9planet/world-engine: the event broadcast hub (`EventHub`) with its
connection establisher (`createEventHub`), subscriber registry
(`Subscribe`/`Unsubscribe`), shutdown latch (`Shutdown`) and dispatch
loop (`Dispatch`).

Modelling choices, all traceable to the Go source:
* Go channels are heap objects; we model a channel heap as an association
  list from an allocation id (`ChanId`) to the channel state: the list of
  events sent on it (in send order) and a closed flag.  A blocking send
  appends the event to the list; the blocking itself is a liveness matter
  outside the sequential model.
* `sync.Map` (`eh.channels`, a `map[string]any`) is an association list
  from session key to a stored value.  Because the Go map stores `any`,
  a stored value is either an event-channel reference or some other value
  (the `value.(chan *Event)` type assertion in the source can fail), which
  we model with `RegValue`.
* The websocket connection is the stream of results its successive
  `ReadMessage` calls produce, plus a closed flag, a close-call counter and
  the error that `Close()` reports.
* Go `error` values in the dispatch path are strings; `errors.Join(a, b)`
  wraps the non-nil arguments in order and is nil when both are nil, which
  we model as `Option (List String)`.
* `panic(...)` (in `Unsubscribe`) is modelled with `Except String`.
-/

/-- Event (events.go lines 15-17): wraps one textual payload. -/
structure Event where
  message : String
deriving DecidableEq, Repr

/-- Allocation identity of a Go channel value. -/
abbrev ChanId := Nat

/-- State of one `chan *Event`: the events sent on it so far (oldest
first) and whether it has been closed. -/
structure EventChan where
  sent : List Event
  closed : Bool
deriving DecidableEq, Repr

/-- The channel heap: allocation id to channel state. -/
abbrev Heap := List (ChanId × EventChan)

/-- A value stored in the `sync.Map` registry (`map[string]any`): either a
reference to an event channel, or a value of some other dynamic type (the
source's `value.(chan *Event)` assertion distinguishes exactly this). -/
inductive RegValue where
  | chan (cid : ChanId)
  | nonChannel (tag : String)
deriving DecidableEq, Repr

/-- The subscriber registry: session key to stored value.  `sync.Map.Range`
iteration order is unspecified in Go; the model fixes list order. -/
abbrev Registry := List (String × RegValue)

/-- `sync.Map.Store`: replace the value under the key if present, else add
the entry. -/
def regStore (r : Registry) (k : String) (v : RegValue) : Registry :=
  if r.any (fun p => p.1 == k) then
    r.map (fun p => if p.1 == k then (p.1, v) else p)
  else r ++ [(k, v)]

/-- `sync.Map.Load`. -/
def regLoad (r : Registry) (k : String) : Option RegValue :=
  (r.find? (fun p => p.1 == k)).map (fun p => p.2)

/-- `sync.Map.Delete`. -/
def regDelete (r : Registry) (k : String) : Registry :=
  r.filter (fun p => p.1 != k)

/-- Allocation ids of the channels referenced by the registry, in
iteration order. -/
def regCids (r : Registry) : List ChanId :=
  r.filterMap (fun p => match p.2 with | .chan cid => some cid | .nonChannel _ => none)

/-- Look up a channel in the heap by its allocation id. -/
def heapLookup (h : Heap) (cid : ChanId) : Option EventChan :=
  (h.find? (fun p => p.1 == cid)).map (fun p => p.2)

/-- `channel <- &Event{message: ...}`: append the event to the channel's
sent list. -/
def heapSend (h : Heap) (cid : ChanId) (m : String) : Heap :=
  h.map (fun p => if p.1 == cid then (p.1, { p.2 with sent := p.2.sent ++ [⟨m⟩] }) else p)

/-- `close(channel)`: mark the channel closed. -/
def heapClose (h : Heap) (cid : ChanId) : Heap :=
  h.map (fun p => if p.1 == cid then (p.1, { p.2 with closed := true }) else p)

/-- Whether a registry value is an event channel (the
`value.(chan *Event)` type assertion succeeds). -/
def isChanVal : RegValue → Bool
  | .chan _ => true
  | .nonChannel _ => false

/-- Every value stored in the registry is an event channel.  This is an
invariant of the program: `Subscribe` is the only code that stores into
the registry, and it always stores a channel. -/
def allChannels (r : Registry) : Bool := r.all (fun p => isChanVal p.2)

/-- One result of a `ReadMessage()` call on the upstream websocket: a frame
with its message type and payload, or a read error (the error text). -/
inductive ReadResult where
  | msg (messageType : Nat) (message : String)
  | fail (e : String)
deriving DecidableEq, Repr

/-- gorilla/websocket `TextMessage`. -/
def TextMessage : Nat := 1

/-- The upstream websocket connection: the stream of results its
successive reads produce, whether it was closed, how many times `Close()`
was called, and the error `Close()` reports. -/
structure Conn where
  reads : List ReadResult
  closed : Bool
  closeCount : Nat
  closeErr : Option String
deriving DecidableEq, Repr

/-- `conn.Close()`: mark closed, count the call; the caller reads
`closeErr` as the returned error. -/
def closeConn (c : Conn) : Conn :=
  { c with closed := true, closeCount := c.closeCount + 1 }

/-- EventHub (events.go lines 19-23): upstream connection, registry
(`channels *sync.Map`), and the `didShutdown atomic.Bool` latch.  The
channel heap and allocation counter make Go's reference semantics for
channels explicit. -/
structure EventHub where
  conn : Conn
  channels : Registry
  chanHeap : Heap
  nextChan : ChanId
  didShutdown : Bool
deriving DecidableEq, Repr

/-- Subscribe (events.go lines 50-54): allocate a fresh channel, `Store` it
under the session key (replacing any previous entry), return it. -/
def Subscribe (hub : EventHub) (session : String) : EventHub × ChanId :=
  let cid := hub.nextChan
  ({ hub with
      chanHeap := hub.chanHeap ++ [(cid, ⟨[], false⟩)],
      channels := regStore hub.channels session (.chan cid),
      nextChan := cid + 1 }, cid)

/-- Unsubscribe (events.go lines 56-67): `Load` the session's value,
panicking (modelled as `.error`) when absent or not an event channel;
otherwise close the channel, then `Delete` the mapping. -/
def Unsubscribe (hub : EventHub) (session : String) : Except String EventHub :=
  match regLoad hub.channels session with
  | none => .error "session not found"
  | some (.nonChannel _) => .error "found object that was not a event channel in event hub"
  | some (.chan cid) =>
      .ok { hub with
              chanHeap := heapClose hub.chanHeap cid,
              channels := regDelete hub.channels session }

/-- Shutdown (events.go lines 69-71): store true into the latch. -/
def Shutdown (hub : EventHub) : EventHub :=
  { hub with didShutdown := true }

/-- The `eh.channels.Range` callback of Dispatch (events.go lines 87-96):
send the event to each entry's channel in iteration order; on the first
entry that is not an event channel, set the (loop-local) error, request
shutdown and stop iterating (`return false`).  Returns the updated heap
and whether the corrupt-entry error was set. -/
def rangeBroadcast (m : String) : Registry → Heap → Heap × Bool
  | [], h => (h, false)
  | (_, .chan cid) :: rest, h => rangeBroadcast m rest (heapSend h cid m)
  | (_, .nonChannel _) :: _, h => (h, true)

/-- One iteration of Dispatch's running loop (events.go lines 78-100),
entered with the latch unset: read one message; on a read error or a
non-text frame, `Shutdown` and continue; otherwise broadcast, and
`Shutdown` if the range callback reported a corrupt entry.  Note that the
`:=` on line 78 declares a loop-local `err` shadowing the function-level
`err` of line 76, so no error value survives the iteration. -/
def dispatchStep (hub : EventHub) (r : ReadResult) : EventHub :=
  match r with
  | .fail _ => Shutdown hub
  | .msg t m =>
      if t != TextMessage then Shutdown hub
      else
        let res := rangeBroadcast m hub.channels hub.chanHeap
        let hub1 := { hub with chanHeap := res.1 }
        if res.2 then Shutdown hub1 else hub1

/-- Outcome of the `for !eh.didShutdown.Load()` loop: either the latch was
observed set (with the reads the loop never consumed), or the modelled
read stream ran out while the loop was still running (the next
`ReadMessage` blocks forever). -/
inductive LoopExit where
  | exited (hub : EventHub) (unread : List ReadResult)
  | blocked (hub : EventHub)
deriving DecidableEq, Repr

/-- The running loop of Dispatch (events.go lines 77-101), reading from an
explicit stream of upcoming read results. -/
def dispatchReadLoop (hub : EventHub) : List ReadResult → LoopExit
  | [] => if hub.didShutdown then .exited hub [] else .blocked hub
  | r :: rest =>
      if hub.didShutdown then .exited hub (r :: rest)
      else dispatchReadLoop (dispatchStep hub r) rest

/-- The teardown `Range` of Dispatch (events.go lines 102-106): for each
key, log it (`log.Info("shutting down: ...")`) then `Unsubscribe` it; a
panic inside `Unsubscribe` propagates.  Returns the hub and the logged
keys in order. -/
def teardownKeys (hub : EventHub) : List String → Except String (EventHub × List String)
  | [] => .ok (hub, [])
  | k :: rest =>
      match Unsubscribe hub k with
      | .error p => .error p
      | .ok hub1 =>
          match teardownKeys hub1 rest with
          | .error p => .error p
          | .ok (hub2, logs) => .ok (hub2, k :: logs)

/-- `errors.Join(a, b)`: nil when both arguments are nil, otherwise an
error wrapping the non-nil arguments in order. -/
def errorsJoin (a b : Option String) : Option (List String) :=
  match a, b with
  | none, none => none
  | some x, none => some [x]
  | none, some y => some [y]
  | some x, some y => some [x, y]

/-- Result of a run of Dispatch: it returned (with the joined error, the
logged session keys and the final hub), it panicked during teardown, or it
blocked forever on a read. -/
inductive DispatchResult where
  | returned (err : Option (List String)) (logs : List String) (hub : EventHub)
  | panicked (p : String)
  | blocked (hub : EventHub)
deriving DecidableEq, Repr

/-- The tail of Dispatch after the running loop has exited (events.go
lines 102-108): run the teardown `Range`, then close the upstream
connection and return `errors.Join(closeErr, err)` — where `err` is the
function-level variable of line 76, still nil (see `Dispatch`).  `unread`
records the reads the loop never consumed. -/
def dispatchFinish (hub : EventHub) (unread : List ReadResult) : DispatchResult :=
  let h1 : EventHub := { hub with conn := { hub.conn with reads := unread } }
  match teardownKeys h1 (h1.channels.map (fun p => p.1)) with
  | .error p => .panicked p
  | .ok (h2, logs) =>
      .returned (errorsJoin h2.conn.closeErr none) logs
        { h2 with conn := closeConn h2.conn }

/-- Dispatch (events.go lines 75-109).  The function-level `var err error`
of line 76 is never assigned inside the loop: line 78's `:=` declares a
fresh loop-local `err` that shadows it, and the closure on lines 87-96
assigns that inner variable.  Hence the error joined with
`eh.inputConnection.Close()` on line 107 is always nil. -/
def Dispatch (hub : EventHub) : DispatchResult :=
  match dispatchReadLoop hub hub.conn.reads with
  | .blocked h => .blocked h
  | .exited h unread => dispatchFinish h unread

/-! ### Connection establishment (`createEventHub`, events.go lines 25-48)

Go error values carry an allocation identity (they are interface values
holding pointers); `errors.Is(err, target)` walks `err`'s `Unwrap` chain
and reports a match when it meets a value equal (`==`, pointer equality
here) to `target`, or one whose type has an `Is(error) bool` method that
accepts `target`.  None of the error types a failed
`websocket.DefaultDialer.Dial` produces (`*net.OpError`, `*net.DNSError`,
`*url.Error`, ...) has an `Is` method, so against the freshly allocated
`&net.DNSError{}` target of line 30 only pointer identity along the chain
counts — and a fresh allocation is distinct from every pre-existing error. -/

/-- A Go error value as seen by the establishment loop: its allocation
identity, whether its dynamic type is `*net.DNSError`, the identities
along its `Unwrap` chain, and its message. -/
structure ConnErr where
  id : Nat
  isDNS : Bool
  unwrapIds : List Nat
  msg : String
deriving DecidableEq, Repr

/-- `errors.Is(err, target)` where `target` is the `&net.DNSError{}` of
line 30, an allocation with identity `targetId`: pointer identity at the
top or along the unwrap chain (no relevant type has an `Is` method; the
dynamic type of `err` plays no role). -/
def errorsIsDNSTarget (e : ConnErr) (targetId : Nat) : Bool :=
  e.id == targetId || e.unwrapIds.contains targetId

/-- One result of a `websocket.DefaultDialer.Dial` call: a live connection
or an error. -/
inductive DialResult where
  | ok (c : Conn)
  | fail (e : ConnErr)
deriving DecidableEq, Repr

/-- The hub construction on success (events.go lines 40-47): fresh empty
`sync.Map`, latch stored false. -/
def newHub (c : Conn) : EventHub :=
  { conn := c, channels := [], chanHeap := [], nextChan := 0, didShutdown := false }

instance {ε α : Type} [DecidableEq ε] [DecidableEq α] : DecidableEq (Except ε α) := fun x y =>
  match x, y with
  | .ok a, .ok b => if h : a = b then .isTrue (by rw [h]) else .isFalse (by simp [h])
  | .ok _, .error _ => .isFalse (by simp)
  | .error _, .ok _ => .isFalse (by simp)
  | .error a, .error b => if h : a = b then .isTrue (by rw [h]) else .isFalse (by simp [h])

/-- What a run of `createEventHub` did: how many `Dial` calls it made, how
many 2-second sleeps it performed, and its outcome (`none` when the
modelled dial-result stream ran out while it was still retrying). -/
structure Establishment where
  attempts : Nat
  sleeps : Nat
  outcome : Option (Except ConnErr EventHub)
deriving DecidableEq, Repr

/-- The `for err != nil` retry loop (events.go lines 29-39), entered with
a current error `e`: when `errors.Is(err, &net.DNSError{})` holds, log,
sleep 2 seconds and redial; otherwise return the error to the caller. -/
def establishRetry (targetId : Nat) :
    ConnErr → Nat → Nat → List DialResult → Establishment
  | e, attempts, sleeps, dials =>
    if errorsIsDNSTarget e targetId then
      match dials with
      | [] => ⟨attempts, sleeps + 1, none⟩
      | .ok c :: _ => ⟨attempts + 1, sleeps + 1, some (.ok (newHub c))⟩
      | .fail e2 :: rest => establishRetry targetId e2 (attempts + 1) (sleeps + 1) rest
    else ⟨attempts, sleeps, some (.error e)⟩

/-- createEventHub (events.go lines 25-48): dial once, run the retry loop
while the dial errored, then build the hub.  `dials` lists the outcomes of
the successive `Dial` calls; `targetId` is the allocation identity of the
fresh `&net.DNSError{}` the `errors.Is` check compares against. -/
def createEventHub (dials : List DialResult) (targetId : Nat) : Establishment :=
  match dials with
  | [] => ⟨0, 0, none⟩
  | .ok c :: _ => ⟨1, 0, some (.ok (newHub c))⟩
  | .fail e :: rest => establishRetry targetId e 1 0 rest

/-! ### Concrete instances used by the claim theorems -/

/-- The joined error of a completed `Dispatch` run, `none` when the run
did not return (blocked or panicked). -/
def dispatchErr : DispatchResult → Option (Option (List String))
  | .returned e _ _ => some e
  | .panicked _ => none
  | .blocked _ => none

/-- A hub whose upstream connection fails on the first read and whose
`Close()` succeeds; the registry is empty. -/
def readFailHub : EventHub :=
  { conn := { reads := [.fail "websocket: close 1006 (abnormal closure)"],
              closed := false, closeCount := 0, closeErr := none },
    channels := [], chanHeap := [], nextChan := 0, didShutdown := false }

/-- A dial error as `websocket.DefaultDialer.Dial` produces on a
name-resolution failure: a `*net.OpError` (allocation 5) wrapping a
`*net.DNSError` (allocation 6). -/
def dnsDialErr : ConnErr :=
  { id := 5, isDNS := false, unwrapIds := [6],
    msg := "dial tcp: lookup cardinal: no such host" }

/-- A live connection for dial results that succeed. -/
def liveConn : Conn :=
  { reads := [], closed := false, closeCount := 0, closeErr := none }

/-- A hub with subscribers "A" and "B" holding open channels 0 and 1. -/
def hubAB : EventHub :=
  { conn := liveConn,
    channels := [("A", .chan 0), ("B", .chan 1)],
    chanHeap := [(0, ⟨[], false⟩), (1, ⟨[], false⟩)],
    nextChan := 2, didShutdown := false }

/-- A hub with a single subscriber "A" holding open channel 0. -/
def hubA : EventHub :=
  { conn := liveConn,
    channels := [("A", .chan 0)],
    chanHeap := [(0, ⟨[], false⟩)],
    nextChan := 1, didShutdown := false }

/-! ### Helper lemmas -/

lemma heapLookup_nil (cid : ChanId) : heapLookup [] cid = none := rfl

lemma heapLookup_cons (a : ChanId) (c : EventChan) (t : Heap) (cid : ChanId) :
    heapLookup ((a, c) :: t) cid = if a = cid then some c else heapLookup t cid := by
  by_cases h : a = cid
  · simp [heapLookup, List.find?_cons_of_pos, h]
  · simp [heapLookup, List.find?_cons_of_neg, h]

lemma heapSend_cons (a : ChanId) (c : EventChan) (t : Heap) (cid : ChanId) (m : String) :
    heapSend ((a, c) :: t) cid m =
      (if a = cid then (a, { c with sent := c.sent ++ [Event.mk m] }) else (a, c)) ::
        heapSend t cid m := by
  by_cases h : a = cid <;> simp [heapSend, h]

lemma heapClose_cons (a : ChanId) (c : EventChan) (t : Heap) (cid : ChanId) :
    heapClose ((a, c) :: t) cid =
      (if a = cid then (a, { c with closed := true }) else (a, c)) :: heapClose t cid := by
  by_cases h : a = cid <;> simp [heapClose, h]

lemma heapLookup_heapSend (h : Heap) (cid cid' : ChanId) (m : String) :
    heapLookup (heapSend h cid m) cid' =
      if cid' = cid then
        (heapLookup h cid').map (fun c => { c with sent := c.sent ++ [Event.mk m] })
      else heapLookup h cid' := by
  induction h with
  | nil => simp [heapSend, heapLookup_nil]
  | cons p t ih =>
      obtain ⟨a, c⟩ := p
      rw [heapSend_cons]
      by_cases hac : a = cid
      · subst hac
        by_cases hc' : a = cid'
        · subst hc'
          simp [heapLookup_cons]
        · simp [heapLookup_cons, hc', ih, Ne.symm hc']
      · by_cases hc' : a = cid'
        · subst hc'
          simp [heapLookup_cons, hac, ih]
        · simp [heapLookup_cons, hac, hc', ih]

lemma heapLookup_heapClose (h : Heap) (cid cid' : ChanId) :
    heapLookup (heapClose h cid) cid' =
      if cid' = cid then (heapLookup h cid').map (fun c => { c with closed := true })
      else heapLookup h cid' := by
  induction h with
  | nil => simp [heapClose, heapLookup_nil]
  | cons p t ih =>
      obtain ⟨a, c⟩ := p
      rw [heapClose_cons]
      by_cases hac : a = cid
      · subst hac
        by_cases hc' : a = cid'
        · subst hc'
          simp [heapLookup_cons]
        · simp [heapLookup_cons, hc', ih, Ne.symm hc']
      · by_cases hc' : a = cid'
        · subst hc'
          simp [heapLookup_cons, hac, ih]
        · simp [heapLookup_cons, hac, hc', ih]

lemma regLoad_cons (k0 : String) (v : RegValue) (t : Registry) (k : String) :
    regLoad ((k0, v) :: t) k = if k0 = k then some v else regLoad t k := by
  by_cases h : k0 = k
  · simp [regLoad, List.find?_cons_of_pos, h]
  · simp [regLoad, List.find?_cons_of_neg, h]

lemma regDelete_cons (k0 : String) (v : RegValue) (t : Registry) (k : String) :
    regDelete ((k0, v) :: t) k =
      if k0 = k then regDelete t k else (k0, v) :: regDelete t k := by
  by_cases h : k0 = k <;> simp [regDelete, List.filter_cons, h]

lemma regDelete_of_not_mem (t : Registry) (k : String)
    (h : k ∉ t.map (fun p => p.1)) : regDelete t k = t := by
  induction t with
  | nil => rfl
  | cons p t ih =>
      obtain ⟨a, v⟩ := p
      simp only [List.map_cons, List.mem_cons] at h
      push_neg at h
      rw [regDelete_cons, if_neg (fun hh => h.1 hh.symm), ih h.2]

lemma regLoad_regDelete_self (r : Registry) (k : String) :
    regLoad (regDelete r k) k = none := by
  induction r with
  | nil => rfl
  | cons p t ih =>
      obtain ⟨a, v⟩ := p
      rw [regDelete_cons]
      by_cases h : a = k
      · rw [if_pos h]; exact ih
      · rw [if_neg h, regLoad_cons, if_neg h]; exact ih

lemma regCids_cons_chan (k : String) (cid : ChanId) (t : Registry) :
    regCids ((k, RegValue.chan cid) :: t) = cid :: regCids t := by
  simp [regCids]

lemma regCids_cons_nonChannel (k : String) (s : String) (t : Registry) :
    regCids ((k, RegValue.nonChannel s) :: t) = regCids t := by
  simp [regCids]

lemma mem_regCids_of_mem (r : Registry) (k : String) (cid : ChanId)
    (h : (k, RegValue.chan cid) ∈ r) : cid ∈ regCids r := by
  induction r with
  | nil => simp at h
  | cons p t ih =>
      rcases List.mem_cons.mp h with h1 | h2
      · obtain ⟨a, v⟩ := p
        rw [← h1, regCids_cons_chan]
        exact List.mem_cons_self _ _
      · obtain ⟨a, v⟩ := p
        cases v with
        | chan c0 => rw [regCids_cons_chan]; exact List.mem_cons_of_mem _ (ih h2)
        | nonChannel s => rw [regCids_cons_nonChannel]; exact ih h2

lemma allChannels_cons (p : String × RegValue) (t : Registry) :
    allChannels (p :: t) = (isChanVal p.2 && allChannels t) := by
  simp [allChannels]

lemma rangeBroadcast_snd (m : String) (r : Registry) (h : Heap)
    (hall : allChannels r = true) : (rangeBroadcast m r h).2 = false := by
  induction r generalizing h with
  | nil => rfl
  | cons p t ih =>
      obtain ⟨k, v⟩ := p
      rw [allChannels_cons, Bool.and_eq_true] at hall
      cases v with
      | chan cid => exact ih (heapSend h cid m) hall.2
      | nonChannel s => simp [isChanVal] at hall

lemma rangeBroadcast_lookup (m : String) (r : Registry) (h : Heap)
    (hall : allChannels r = true) (hnd : (regCids r).Nodup) (cid : ChanId) :
    heapLookup (rangeBroadcast m r h).1 cid =
      if cid ∈ regCids r then
        (heapLookup h cid).map (fun c => { c with sent := c.sent ++ [Event.mk m] })
      else heapLookup h cid := by
  induction r generalizing h with
  | nil => simp [rangeBroadcast, regCids]
  | cons p t ih =>
      obtain ⟨k, v⟩ := p
      rw [allChannels_cons, Bool.and_eq_true] at hall
      cases v with
      | nonChannel s => simp [isChanVal] at hall
      | chan c0 =>
          rw [regCids_cons_chan] at hnd ⊢
          have hnd' := List.nodup_cons.mp hnd
          show heapLookup (rangeBroadcast m t (heapSend h c0 m)).1 cid = _
          rw [ih (heapSend h c0 m) hall.2 hnd'.2]
          by_cases hc : cid = c0
          · subst hc
            rw [if_neg hnd'.1, heapLookup_heapSend, if_pos rfl,
                if_pos (List.mem_cons_self _ _)]
          · rw [heapLookup_heapSend, if_neg hc]
            by_cases hmem : cid ∈ regCids t
            · rw [if_pos hmem, if_pos (List.mem_cons_of_mem _ hmem)]
            · rw [if_neg hmem, if_neg (by simp [hc, hmem])]

lemma rangeBroadcast_lookup_not_mem (m : String) (r : Registry) (h : Heap)
    (cid : ChanId) (hmem : cid ∉ regCids r) :
    heapLookup (rangeBroadcast m r h).1 cid = heapLookup h cid := by
  induction r generalizing h with
  | nil => rfl
  | cons p t ih =>
      obtain ⟨k, v⟩ := p
      cases v with
      | nonChannel s => rfl
      | chan c0 =>
          rw [regCids_cons_chan] at hmem
          show heapLookup (rangeBroadcast m t (heapSend h c0 m)).1 cid = _
          rw [ih _ (fun hh => hmem (List.mem_cons_of_mem _ hh)),
              heapLookup_heapSend,
              if_neg (fun hh : cid = c0 => hmem (by rw [hh]; exact List.mem_cons_self _ _))]

lemma dispatchReadLoop_text (msgs : List String) (hub : EventHub)
    (hflag : hub.didShutdown = false) (hall : allChannels hub.channels = true)
    (hnd : (regCids hub.channels).Nodup) :
    ∃ heap1, dispatchReadLoop hub (msgs.map (fun s => ReadResult.msg TextMessage s)) =
        .blocked { hub with chanHeap := heap1 } ∧
      ∀ cid, heapLookup heap1 cid =
        if cid ∈ regCids hub.channels then
          (heapLookup hub.chanHeap cid).map
            (fun c => { c with sent := c.sent ++ msgs.map Event.mk })
        else heapLookup hub.chanHeap cid := by
  induction msgs generalizing hub with
  | nil =>
      obtain ⟨cn, ch, hp, nx, fl⟩ := hub
      simp only at hflag hall hnd
      subst hflag
      refine ⟨hp, rfl, ?_⟩
      intro cid
      by_cases hmem : cid ∈ regCids ch
      · rw [if_pos hmem]
        cases heapLookup hp cid <;> simp
      · rw [if_neg hmem]
  | cons m ms ih =>
      obtain ⟨cn, ch, hp, nx, fl⟩ := hub
      simp only at hflag hall hnd
      subst hflag
      have hsnd := rangeBroadcast_snd m ch hp hall
      have hstep : dispatchStep ⟨cn, ch, hp, nx, false⟩ (ReadResult.msg TextMessage m) =
          ⟨cn, ch, (rangeBroadcast m ch hp).1, nx, false⟩ := by
        simp [dispatchStep, hsnd]
      obtain ⟨heap2, hloop, hlook⟩ :=
        ih ⟨cn, ch, (rangeBroadcast m ch hp).1, nx, false⟩ rfl hall hnd
      refine ⟨heap2, ?_, ?_⟩
      · rw [List.map_cons]
        show dispatchReadLoop ⟨cn, ch, hp, nx, false⟩ (ReadResult.msg TextMessage m ::
          ms.map (fun s => ReadResult.msg TextMessage s)) = _
        show dispatchReadLoop (dispatchStep ⟨cn, ch, hp, nx, false⟩
          (ReadResult.msg TextMessage m)) (ms.map (fun s => ReadResult.msg TextMessage s)) = _
        rw [hstep]
        exact hloop
      · intro cid
        have h1 := hlook cid
        simp only at h1
        rw [rangeBroadcast_lookup m ch hp hall hnd cid] at h1
        by_cases hmem : cid ∈ regCids ch
        · simp only [hmem, if_true] at h1 ⊢
          rw [h1]
          cases heapLookup hp cid <;> simp [List.append_assoc]
        · simp only [hmem, if_false] at h1 ⊢
          exact h1

lemma teardownKeys_spec (ch : Registry) (hub : EventHub) (hch : hub.channels = ch)
    (hall : allChannels ch = true) (hnd : (ch.map (fun p => p.1)).Nodup) :
    ∃ hub2, teardownKeys hub (ch.map (fun p => p.1)) = .ok (hub2, ch.map (fun p => p.1)) ∧
      hub2.channels = [] ∧ hub2.conn = hub.conn ∧ hub2.nextChan = hub.nextChan ∧
      hub2.didShutdown = hub.didShutdown ∧
      ∀ cid, heapLookup hub2.chanHeap cid =
        if cid ∈ regCids ch then
          (heapLookup hub.chanHeap cid).map (fun c => { c with closed := true })
        else heapLookup hub.chanHeap cid := by
  induction ch generalizing hub with
  | nil =>
      refine ⟨hub, rfl, hch, rfl, rfl, rfl, ?_⟩
      intro cid
      simp [regCids]
  | cons p t ih =>
      obtain ⟨k, v⟩ := p
      rw [allChannels_cons, Bool.and_eq_true] at hall
      cases v with
      | nonChannel s => simp [isChanVal] at hall
      | chan c0 =>
          rw [List.map_cons] at hnd
          have hnd' := List.nodup_cons.mp hnd
          have hload : regLoad hub.channels k = some (.chan c0) := by
            rw [hch, regLoad_cons, if_pos rfl]
          have hdel : regDelete hub.channels k = t := by
            rw [hch, regDelete_cons, if_pos rfl]
            exact regDelete_of_not_mem t k hnd'.1
          have huns : Unsubscribe hub k =
              .ok { hub with chanHeap := heapClose hub.chanHeap c0, channels := t } := by
            rw [Unsubscribe, hload]
            rw [hdel]
          obtain ⟨hub2, hteard, hch2, hconn2, hnext2, hflag2, hlook⟩ :=
            ih { hub with chanHeap := heapClose hub.chanHeap c0, channels := t }
              rfl hall.2 hnd'.2
          refine ⟨hub2, ?_, hch2, hconn2, hnext2, hflag2, ?_⟩
          · rw [List.map_cons]
            simp only [teardownKeys, huns, hteard]
          · intro cid
            have h1 := hlook cid
            simp only at h1
            rw [heapLookup_heapClose] at h1
            rw [regCids_cons_chan, h1]
            by_cases hc : cid = c0 <;> by_cases hmem : cid ∈ regCids t <;>
              simp [hc, hmem] <;> cases heapLookup hub.chanHeap c0 <;> simp

lemma dispatchReadLoop_exited (hub : EventHub) (l : List ReadResult)
    (hflag : hub.didShutdown = true) : dispatchReadLoop hub l = .exited hub l := by
  cases l <;> simp [dispatchReadLoop, hflag]

lemma Dispatch_shutdown_spec (hub : EventHub)
    (hflag : hub.didShutdown = true) (hall : allChannels hub.channels = true)
    (hnd : (hub.channels.map (fun p => p.1)).Nodup) :
    ∃ hub2, Dispatch hub =
        .returned (errorsJoin hub.conn.closeErr none)
          (hub.channels.map (fun p => p.1)) hub2 ∧
      hub2.channels = [] ∧
      hub2.conn.reads = hub.conn.reads ∧
      hub2.conn.closed = true ∧
      hub2.conn.closeCount = hub.conn.closeCount + 1 ∧
      hub2.conn.closeErr = hub.conn.closeErr ∧
      hub2.didShutdown = true ∧
      hub2.nextChan = hub.nextChan ∧
      ∀ cid, heapLookup hub2.chanHeap cid =
        if cid ∈ regCids hub.channels then
          (heapLookup hub.chanHeap cid).map (fun c => { c with closed := true })
        else heapLookup hub.chanHeap cid := by
  obtain ⟨cn, ch, hp, nx, fl⟩ := hub
  simp only at hflag hall hnd ⊢
  subst hflag
  obtain ⟨hub2, hteard, hch2, hconn2, hnext2, hflag2, hlook⟩ :=
    teardownKeys_spec ch ⟨cn, ch, hp, nx, true⟩ rfl hall hnd
  have hD : Dispatch ⟨cn, ch, hp, nx, true⟩ = dispatchFinish ⟨cn, ch, hp, nx, true⟩ cn.reads := by
    unfold Dispatch
    rw [dispatchReadLoop_exited _ _ rfl]
  have hF : dispatchFinish ⟨cn, ch, hp, nx, true⟩ cn.reads =
      .returned (errorsJoin cn.closeErr none) (ch.map (fun p => p.1))
        { hub2 with conn := closeConn hub2.conn } := by
    show (match teardownKeys ⟨cn, ch, hp, nx, true⟩
        (ch.map (fun p : String × RegValue => p.1)) with
      | Except.error p => DispatchResult.panicked p
      | Except.ok (h2, logs) =>
          DispatchResult.returned (errorsJoin h2.conn.closeErr none) logs
            { h2 with conn := closeConn h2.conn }) = _
    rw [hteard]
    show DispatchResult.returned (errorsJoin hub2.conn.closeErr none)
      (List.map (fun p => p.1) ch) { hub2 with conn := closeConn hub2.conn } = _
    simp only at hconn2
    rw [hconn2]
  refine ⟨{ hub2 with conn := closeConn hub2.conn }, ?_, hch2, ?_, rfl, ?_, ?_, ?_, ?_, ?_⟩
  · rw [hD, hF]
  · show hub2.conn.reads = cn.reads
    rw [hconn2]
  · show hub2.conn.closeCount + 1 = cn.closeCount + 1
    rw [hconn2]
  · show hub2.conn.closeErr = cn.closeErr
    rw [hconn2]
  · exact hflag2
  · exact hnext2
  · intro cid
    exact hlook cid

lemma regAny_of_regLoad (r : Registry) (k : String) (v0 : RegValue)
    (h : regLoad r k = some v0) : r.any (fun p => p.1 == k) = true := by
  unfold regLoad at h
  cases hf : r.find? (fun p => p.1 == k) with
  | none => rw [hf] at h; simp at h
  | some p0 =>
      have hp0 := List.find?_some hf
      have hmem := List.mem_of_find?_eq_some hf
      exact List.any_eq_true.mpr ⟨p0, hmem, hp0⟩

lemma regLoad_mapStore (r : Registry) (k : String) (v : RegValue) :
    regLoad (r.map (fun p => if p.1 == k then (p.1, v) else p)) k =
      (regLoad r k).map (fun _ => v) := by
  induction r with
  | nil => rfl
  | cons p t ih =>
      obtain ⟨a, w⟩ := p
      by_cases h : a = k
      · subst h
        simp only [List.map_cons, if_pos rfl, beq_self_eq_true, if_true]
        rw [regLoad_cons, regLoad_cons, if_pos rfl, if_pos rfl]
        rfl
      · have hb : (a == k) = false := beq_eq_false_iff_ne.mpr h
        simp only [List.map_cons, hb, Bool.false_eq_true, if_false]
        rw [regLoad_cons, regLoad_cons, if_neg h, if_neg h]
        exact ih

lemma regLoad_regStore_of_load (r : Registry) (k : String) (v v0 : RegValue)
    (h : regLoad r k = some v0) : regLoad (regStore r k v) k = some v := by
  unfold regStore
  rw [if_pos (regAny_of_regLoad r k v0 h), regLoad_mapStore, h]
  rfl

lemma mem_regStore (r : Registry) (k : String) (v : RegValue) (q : String × RegValue)
    (hq : q ∈ regStore r k v) : q.2 = v ∨ (q ∈ r ∧ q.1 ≠ k) := by
  unfold regStore at hq
  by_cases hany : r.any (fun p => p.1 == k) = true
  · rw [if_pos hany] at hq
    obtain ⟨p, hp, hpq⟩ := List.mem_map.mp hq
    by_cases hk : p.1 = k
    · left
      rw [← hpq, if_pos (beq_iff_eq.mpr hk)]
    · right
      rw [← hpq, if_neg (by simp [hk])]
      exact ⟨hp, hk⟩
  · rw [if_neg hany] at hq
    rcases List.mem_append.mp hq with h1 | h2
    · right
      refine ⟨h1, ?_⟩
      intro hk
      exact hany (List.any_eq_true.mpr ⟨q, h1, beq_iff_eq.mpr hk⟩)
    · left
      rw [List.mem_singleton.mp h2]

lemma heapLookup_append_old (h : Heap) (cid cid' : ChanId) (c : EventChan)
    (hne : cid' ≠ cid) : heapLookup (h ++ [(cid, c)]) cid' = heapLookup h cid' := by
  induction h with
  | nil =>
      show heapLookup [(cid, c)] cid' = none
      rw [heapLookup_cons, if_neg (Ne.symm hne)]
      rfl
  | cons p t ih =>
      obtain ⟨a, w⟩ := p
      rw [List.cons_append, heapLookup_cons, heapLookup_cons, ih]

lemma heapLookup_append_fresh (h : Heap) (cid : ChanId) (c : EventChan)
    (hfresh : ∀ p ∈ h, p.1 ≠ cid) : heapLookup (h ++ [(cid, c)]) cid = some c := by
  induction h with
  | nil => rw [List.nil_append, heapLookup_cons, if_pos rfl]
  | cons p t ih =>
      obtain ⟨a, w⟩ := p
      rw [List.cons_append, heapLookup_cons,
          if_neg (hfresh (a, w) (List.mem_cons_self _ _)),
          ih (fun q hq => hfresh q (List.mem_cons_of_mem _ hq))]

lemma dispatchStep_didShutdown (hub : EventHub) (r : ReadResult)
    (h : hub.didShutdown = true) : (dispatchStep hub r).didShutdown = true := by
  cases r with
  | fail e => rfl
  | msg t m =>
      simp only [dispatchStep]
      split
      · rfl
      · split
        · rfl
        · exact h

lemma Unsubscribe_didShutdown (hub : EventHub) (s : String) (hub2 : EventHub)
    (h : Unsubscribe hub s = .ok hub2) : hub2.didShutdown = hub.didShutdown := by
  unfold Unsubscribe at h
  cases hload : regLoad hub.channels s with
  | none => rw [hload] at h; exact absurd h (by simp)
  | some v =>
      cases v with
      | nonChannel tag => rw [hload] at h; exact absurd h (by simp)
      | chan cid =>
          rw [hload] at h
          have := Except.ok.inj h
          rw [← this]

/-! ### Claim theorems -/

/-- C1: the claim states that every shutdown-triggering error (upstream
read failure, non-text frame, corrupted registry entry) is joined with the
connection-close error into the error Dispatch returns.  The code drops
them all: line 78's `:=` declares a loop-local `err` shadowing the
function-level `err` of line 76, so the value joined on line 107 is always
nil.  Evaluating Dispatch on a hub whose first upstream read fails and
whose `Close()` succeeds: the run returns with a nil joined error even
though the read failure is what triggered the shutdown. -/
theorem dispatch_read_error_dropped :
    dispatchErr (Dispatch readFailHub) = some none := rfl

/-- C3: the claim states that createEventHub retries indefinitely on
name-resolution failures (in particular, two DNS failures followed by a
success yield a live connection on the third attempt) and fails
immediately on any other error.  In the code the check of line 30 never
matches a real DNS failure — `*net.DNSError` has no
`Is` method, so only pointer identity with the freshly allocated target
counts — hence the retry never happens.  On the claim's own scenario (two
DNS failures, then success; fresh target allocation 100) the code makes a
single attempt, never sleeps, and returns the first DNS error. -/
theorem createEventHub_never_retries_dns :
    createEventHub [.fail dnsDialErr, .fail dnsDialErr, .ok liveConn] 100 =
      ⟨1, 0, some (.error dnsDialErr)⟩ := rfl

/-- C6: Unsubscribe of a session key absent from the registry fails loudly
with the `"session not found"` panic (modelled as an `Except.error`), and
no post-state is produced (in Go the panic aborts before any mutation, so
the registry is unchanged). -/
theorem unsubscribe_unknown_session (hub : EventHub) (s : String)
    (h : regLoad hub.channels s = none) :
    Unsubscribe hub s = .error "session not found" ∧
    ∀ hub2, Unsubscribe hub s ≠ .ok hub2 := by
  constructor
  · unfold Unsubscribe
    rw [h]
  · intro hub2 hc
    unfold Unsubscribe at hc
    rw [h] at hc
    exact absurd hc (by simp)

theorem unsubscribe_unknown_session_witness :
    regLoad (newHub liveConn).channels "ghost" = none ∧
    (Unsubscribe (newHub liveConn) "ghost" = .error "session not found" ∧
      ∀ hub2, Unsubscribe (newHub liveConn) "ghost" ≠ .ok hub2) :=
  ⟨rfl, unsubscribe_unknown_session (newHub liveConn) "ghost" rfl⟩

/-- C7: Unsubscribe of a session key mapped to a channel closes that
channel and removes the mapping: afterwards the registry has no entry for
the key, the channel's heap state is closed, and — once the channel id is
no longer referenced by the registry — a broadcast never sends to it
again. -/
theorem unsubscribe_closes_and_removes (hub : EventHub) (s : String) (cid : ChanId)
    (h : regLoad hub.channels s = some (.chan cid)) :
    ∃ hub2, Unsubscribe hub s = .ok hub2 ∧
      regLoad hub2.channels s = none ∧
      heapLookup hub2.chanHeap cid =
        (heapLookup hub.chanHeap cid).map (fun c => { c with closed := true }) ∧
      hub2.channels = regDelete hub.channels s ∧
      (cid ∉ regCids hub2.channels →
        ∀ m, heapLookup (rangeBroadcast m hub2.channels hub2.chanHeap).1 cid =
          heapLookup hub2.chanHeap cid) := by
  refine ⟨{ hub with chanHeap := heapClose hub.chanHeap cid, channels := regDelete hub.channels s }, ?_, ?_, ?_, rfl, ?_⟩
  · unfold Unsubscribe
    rw [h]
  · show regLoad (regDelete hub.channels s) s = none
    exact regLoad_regDelete_self hub.channels s
  · show heapLookup (heapClose hub.chanHeap cid) cid = _
    rw [heapLookup_heapClose, if_pos rfl]
  · intro hnm m
    exact rangeBroadcast_lookup_not_mem m _ _ cid hnm

theorem unsubscribe_closes_and_removes_witness :
    regLoad hubAB.channels "A" = some (.chan 0) ∧
    ∃ hub2, Unsubscribe hubAB "A" = .ok hub2 ∧
      regLoad hub2.channels "A" = none ∧
      heapLookup hub2.chanHeap 0 =
        (heapLookup hubAB.chanHeap 0).map (fun c => { c with closed := true }) ∧
      hub2.channels = regDelete hubAB.channels "A" ∧
      (0 ∉ regCids hub2.channels →
        ∀ m, heapLookup (rangeBroadcast m hub2.channels hub2.chanHeap).1 0 =
          heapLookup hub2.chanHeap 0) :=
  ⟨by decide, unsubscribe_closes_and_removes hubAB "A" 0 (by decide)⟩

/-- C8: Shutdown modifies only the latch: the upstream connection (hence
its open/closed state), the registry contents and the channel heap (hence
every channel's open state) are all untouched; only `didShutdown` becomes
true. -/
theorem shutdown_only_sets_flag (hub : EventHub) :
    (Shutdown hub).conn = hub.conn ∧
    (Shutdown hub).channels = hub.channels ∧
    (Shutdown hub).chanHeap = hub.chanHeap ∧
    (Shutdown hub).nextChan = hub.nextChan ∧
    (Shutdown hub).didShutdown = true :=
  ⟨rfl, rfl, rfl, rfl, rfl⟩

/-- C9: Subscribe on an already-present session key stores a freshly
allocated channel under the key and returns it, silently replacing the
previous entry; the old channel's heap state is untouched (in particular
it is not closed) and no registry entry references it any more (it is
orphaned).  `hfresh` is the allocator invariant (every allocated id is
below `nextChan`), `hold` says the old channel exists, and `halias` says
no other session shares the old channel — both automatic in reachable
states, where `Subscribe` is the only allocator. -/
theorem resubscribe_replaces_entry (hub : EventHub) (s : String) (oldCid : ChanId)
    (h : regLoad hub.channels s = some (.chan oldCid))
    (hfresh : ∀ p ∈ hub.chanHeap, p.1 < hub.nextChan)
    (hold : oldCid ∈ hub.chanHeap.map (fun p => p.1))
    (halias : ∀ k, (k, RegValue.chan oldCid) ∈ hub.channels → k = s) :
    (Subscribe hub s).2 = hub.nextChan ∧
    regLoad (Subscribe hub s).1.channels s = some (.chan hub.nextChan) ∧
    heapLookup (Subscribe hub s).1.chanHeap hub.nextChan = some ⟨[], false⟩ ∧
    oldCid ≠ hub.nextChan ∧
    heapLookup (Subscribe hub s).1.chanHeap oldCid = heapLookup hub.chanHeap oldCid ∧
    ∀ k, (k, RegValue.chan oldCid) ∉ (Subscribe hub s).1.channels := by
  have hne : oldCid ≠ hub.nextChan := by
    obtain ⟨p, hp, hpe⟩ := List.mem_map.mp hold
    rw [← hpe]
    exact Nat.ne_of_lt (hfresh p hp)
  refine ⟨rfl, ?_, ?_, hne, ?_, ?_⟩
  · show regLoad (regStore hub.channels s (.chan hub.nextChan)) s = _
    exact regLoad_regStore_of_load hub.channels s _ _ h
  · show heapLookup (hub.chanHeap ++ [(hub.nextChan, ⟨[], false⟩)]) hub.nextChan = _
    exact heapLookup_append_fresh hub.chanHeap hub.nextChan ⟨[], false⟩
      (fun p hp => Nat.ne_of_lt (hfresh p hp))
  · show heapLookup (hub.chanHeap ++ [(hub.nextChan, ⟨[], false⟩)]) oldCid = _
    exact heapLookup_append_old hub.chanHeap hub.nextChan oldCid ⟨[], false⟩ hne
  · intro k hk
    rcases mem_regStore hub.channels s (.chan hub.nextChan) (k, .chan oldCid) hk with h1 | h2
    · exact hne (RegValue.chan.inj h1)
    · exact h2.2 (halias k h2.1)

theorem resubscribe_replaces_entry_witness :
    regLoad hubA.channels "A" = some (.chan 0) ∧
    (Subscribe hubA "A").2 = 1 ∧
    regLoad (Subscribe hubA "A").1.channels "A" = some (.chan 1) ∧
    heapLookup (Subscribe hubA "A").1.chanHeap 0 = some ⟨[], false⟩ ∧
    ("A", RegValue.chan 0) ∉ (Subscribe hubA "A").1.channels := by
  have h := resubscribe_replaces_entry hubA "A" 0 (by decide) (by decide) (by decide)
    (fun k hk => by
      have h1 := List.mem_singleton.mp hk
      exact congrArg Prod.fst h1)
  refine ⟨by decide, h.1, h.2.1, ?_, h.2.2.2.2.2 "A"⟩
  rw [h.2.2.2.2.1]
  decide

/-- C5: the shutdown latch is an idempotent one-way flag: a second
Shutdown is a no-op, the flag is true after Shutdown, no hub operation
(Subscribe, a successful Unsubscribe, Shutdown, a dispatch iteration)
ever resets a set flag, Shutdown itself performs no teardown (connection
close count, registry and channel heap untouched), and running Dispatch
after two Shutdown calls is identical to running it after one — so
repeated calls cannot double-run the teardown or double-close the
connection. -/
theorem shutdown_latch (hub : EventHub) (s : String) (r : ReadResult) :
    Shutdown (Shutdown hub) = Shutdown hub ∧
    (Shutdown hub).didShutdown = true ∧
    (hub.didShutdown = true →
      (Subscribe hub s).1.didShutdown = true ∧
      (∀ hub2, Unsubscribe hub s = .ok hub2 → hub2.didShutdown = true) ∧
      (Shutdown hub).didShutdown = true ∧
      (dispatchStep hub r).didShutdown = true) ∧
    (Shutdown hub).conn.closeCount = hub.conn.closeCount ∧
    (Shutdown hub).channels = hub.channels ∧
    (Shutdown hub).chanHeap = hub.chanHeap ∧
    Dispatch (Shutdown (Shutdown hub)) = Dispatch (Shutdown hub) := by
  refine ⟨rfl, rfl, ?_, rfl, rfl, rfl, rfl⟩
  intro hf
  refine ⟨hf, ?_, rfl, dispatchStep_didShutdown hub r hf⟩
  intro hub2 h2
  rw [Unsubscribe_didShutdown hub s hub2 h2, hf]

theorem shutdown_latch_witness :
    Shutdown (Shutdown (Shutdown hubAB)) = Shutdown (Shutdown hubAB) ∧
    (dispatchStep (Shutdown hubAB) (ReadResult.fail "eof")).didShutdown = true :=
  ⟨(shutdown_latch (Shutdown hubAB) "A" (ReadResult.fail "eof")).1,
    ((shutdown_latch (Shutdown hubAB) "A" (ReadResult.fail "eof")).2.2.1 rfl).2.2.2⟩

/-- C2: when the registry holds only event channels (the program
invariant), a text frame read while running delivers exactly one Event,
whose message is the frame payload, to every channel currently stored in
the registry (appended at the tail of its delivery sequence); and a run
over any sequence of text frames delivers to every registered channel
exactly one Event per frame, in upstream arrival order.  The Nodup
hypothesis rules out two registry entries aliasing one channel, which
`Subscribe`'s fresh allocation guarantees in reachable states. -/
theorem dispatch_delivers_frames (hub : EventHub) (m : String) (msgs : List String)
    (hflag : hub.didShutdown = false)
    (hall : allChannels hub.channels = true)
    (hnd : (regCids hub.channels).Nodup) :
    (∀ k cid, (k, RegValue.chan cid) ∈ hub.channels →
      heapLookup (dispatchStep hub (ReadResult.msg TextMessage m)).chanHeap cid =
        (heapLookup hub.chanHeap cid).map
          (fun c => { c with sent := c.sent ++ [Event.mk m] })) ∧
    (∃ heap1, dispatchReadLoop hub (msgs.map (fun s => ReadResult.msg TextMessage s)) =
        .blocked { hub with chanHeap := heap1 } ∧
      ∀ k cid, (k, RegValue.chan cid) ∈ hub.channels →
        heapLookup heap1 cid =
          (heapLookup hub.chanHeap cid).map
            (fun c => { c with sent := c.sent ++ msgs.map Event.mk })) := by
  constructor
  · intro k cid hk
    have hstep : dispatchStep hub (ReadResult.msg TextMessage m) =
        { hub with chanHeap := (rangeBroadcast m hub.channels hub.chanHeap).1 } := by
      simp [dispatchStep, rangeBroadcast_snd m hub.channels hub.chanHeap hall]
    rw [hstep]
    show heapLookup (rangeBroadcast m hub.channels hub.chanHeap).1 cid = _
    rw [rangeBroadcast_lookup m hub.channels hub.chanHeap hall hnd cid,
        if_pos (mem_regCids_of_mem _ _ _ hk)]
  · obtain ⟨heap1, hl, hlook⟩ := dispatchReadLoop_text msgs hub hflag hall hnd
    refine ⟨heap1, hl, fun k cid hk => ?_⟩
    rw [hlook cid, if_pos (mem_regCids_of_mem _ _ _ hk)]

theorem dispatch_delivers_frames_witness :
    hubAB.didShutdown = false ∧ allChannels hubAB.channels = true ∧
    (regCids hubAB.channels).Nodup ∧
    heapLookup (dispatchStep hubAB (ReadResult.msg TextMessage "hello")).chanHeap 0 =
      some ⟨[Event.mk "hello"], false⟩ := by
  have h := dispatch_delivers_frames hubAB "hello" ["hello", "world"] rfl (by decide) (by decide)
  refine ⟨rfl, by decide, by decide, ?_⟩
  have h0 := h.1 "A" 0 (by decide)
  rw [h0]
  decide

/-- C4: once the latch is set, Dispatch reads no further frame (the
connection's pending reads are untouched), logs each remaining registry
entry exactly once (the logged keys are exactly the registry keys, in
order), unsubscribes each of them — leaving the registry empty with every
previously registered channel closed — and then closes the upstream
connection exactly once; the returned error joins the close error with
the (nil) loop error. -/
theorem dispatch_teardown (hub : EventHub)
    (hflag : hub.didShutdown = true)
    (hall : allChannels hub.channels = true)
    (hkeys : (hub.channels.map (fun p => p.1)).Nodup) :
    ∃ hub2, Dispatch hub =
        .returned (errorsJoin hub.conn.closeErr none)
          (hub.channels.map (fun p => p.1)) hub2 ∧
      hub2.conn.reads = hub.conn.reads ∧
      hub2.channels = [] ∧
      (∀ k cid, (k, RegValue.chan cid) ∈ hub.channels →
        heapLookup hub2.chanHeap cid =
          (heapLookup hub.chanHeap cid).map (fun c => { c with closed := true })) ∧
      hub2.conn.closed = true ∧
      hub2.conn.closeCount = hub.conn.closeCount + 1 := by
  obtain ⟨hub2, hret, hch, hreads, hcl, hcc, hce, hflag2, hnx, hlook⟩ :=
    Dispatch_shutdown_spec hub hflag hall hkeys
  refine ⟨hub2, hret, hreads, hch, fun k cid hk => ?_, hcl, hcc⟩
  rw [hlook cid, if_pos (mem_regCids_of_mem _ _ _ hk)]

theorem dispatch_teardown_witness :
    (Shutdown hubAB).didShutdown = true ∧
    allChannels (Shutdown hubAB).channels = true ∧
    ((Shutdown hubAB).channels.map (fun p => p.1)).Nodup ∧
    ∃ hub2, Dispatch (Shutdown hubAB) = .returned none ["A", "B"] hub2 ∧
      hub2.channels = [] := by
  obtain ⟨hub2, hret, hreads, hch, hclosed, hcl, hcc⟩ :=
    dispatch_teardown (Shutdown hubAB) rfl (by decide) (by decide)
  exact ⟨rfl, by decide, by decide, hub2, hret, hch⟩

/-- C10: if Dispatch runs with the latch already set by an external
Shutdown request — so no read error, non-text frame or corrupt registry
entry was ever encountered — and closing the upstream connection
succeeds, then Dispatch returns a nil error. -/
theorem dispatch_clean_shutdown_nil_error (hub : EventHub)
    (hflag : hub.didShutdown = true)
    (hall : allChannels hub.channels = true)
    (hkeys : (hub.channels.map (fun p => p.1)).Nodup)
    (hclose : hub.conn.closeErr = none) :
    ∃ logs hub2, Dispatch hub = .returned none logs hub2 := by
  obtain ⟨hub2, hret, _⟩ := Dispatch_shutdown_spec hub hflag hall hkeys
  rw [hclose] at hret
  exact ⟨_, hub2, hret⟩

theorem dispatch_clean_shutdown_nil_error_witness :
    (Shutdown hubA).didShutdown = true ∧
    (Shutdown hubA).conn.closeErr = none ∧
    ∃ logs hub2, Dispatch (Shutdown hubA) = .returned none logs hub2 :=
  ⟨rfl, rfl,
    dispatch_clean_shutdown_nil_error (Shutdown hubA) rfl (by decide) (by decide) rfl⟩
